import Mathlib

/-!
# Verification of the support-ticket helpdesk core

A shallow embedding of the ticket lifecycle engine, the auto-close sweeper,
the persistent store, the feedback cooldown tracker and the admin screen
registry of the helpdesk bot, together with proofs of the specified
properties.

Modelling conventions:
* machine strings are `List Char` (`Str`);
* timestamps are integer epoch seconds (`Int`);
* the Python `dict` of tickets keyed by ticket id is an association list of
  tickets carrying their id, in insertion order, with unique ids;
* every persisting mutation bumps a `saveCount`, mirroring the full-state
  `save()` the data manager performs on each mutation.
-/

namespace Helpdesk

/-- Strings of the embedded program are lists of characters. -/
abbrev Str := List Char

/-- Sender role of a message: `"user"` or `"support"` in the source. -/
inductive Sender where
  | user
  | support
deriving DecidableEq, Repr

/-- Ticket status: `"new"`, `"working"` or `"done"` in the source. -/
inductive Status where
  | new
  | working
  | done
deriving DecidableEq, Repr

/-- A message embedded in a ticket (`storage.models.Message`):
sender role, optional text, timestamp (`at` in the source). -/
structure Message where
  sender : Sender
  text : Option Str
  sent_at : Int
deriving DecidableEq, Repr

/-- A ticket (`storage.models.Ticket`), with exactly the fields the engine
manipulates in `services/tickets.py` and `services/ticket_auto_close.py`. -/
structure Ticket where
  id : Str
  user_id : Nat
  username : Option Str
  created_at : Int
  status : Status
  messages : List Message
  last_activity_at : Option Int
  last_actor : Sender
  assigned : Option Nat
  first_response_at : Option Int
  rating : Option Nat
  rated : Bool
deriving DecidableEq, Repr

/-- The in-memory ticket store of `DataManager`: the ticket dict (as an
association list in insertion order) plus a counter of `save()` calls,
so that "no save is triggered" is observable. -/
structure Store where
  tickets : List Ticket
  saveCount : Nat
deriving DecidableEq, Repr

/-- `DataManager.save`: full-state persistence; in the store model it only
bumps the save counter. -/
def dmSave (s : Store) : Store :=
  { s with saveCount := s.saveCount + 1 }

/-- `DataManager.get_ticket`: dictionary lookup by ticket id. -/
def get_ticket (tid : Str) (s : Store) : Option Ticket :=
  s.tickets.find? (fun t => decide (t.id = tid))

/-- `DataManager.create_ticket`: `self.data["tickets"][ticket.id] = ticket`
followed by `save()`.  Dict assignment overwrites an existing key and
appends a new key at the end of the insertion order. -/
def dmCreateTicket (t : Ticket) (s : Store) : Store :=
  if s.tickets.any (fun u => decide (u.id = t.id)) then
    dmSave { s with tickets := s.tickets.map (fun u => if u.id = t.id then t else u) }
  else
    dmSave { s with tickets := s.tickets ++ [t] }

/-- `DataManager.update_ticket`: replaces the ticket stored under `t.id` and
saves, but only when the id is present; otherwise it logs a warning and does
nothing (no save). -/
def update_ticket (t : Ticket) (s : Store) : Store :=
  if s.tickets.any (fun u => decide (u.id = t.id)) then
    dmSave { s with tickets := s.tickets.map (fun u => if u.id = t.id then t else u) }
  else s

/-! ## Ticket id generation (`TicketService.generate_ticket_id`) -/

/-- The character for decimal digit `d` (`0 ≤ d ≤ 9`). -/
def digitChar (d : Nat) : Char :=
  Char.ofNat ('0'.toNat + d)

/-- Decimal digit strings, structurally recursive on a fuel bound so that
the definition reduces by evaluation; `digitsGo fuel n` is correct for
`n < fuel`. -/
def digitsGo : Nat → Nat → List Char
  | 0, _ => []
  | fuel + 1, n =>
    if n < 10 then [digitChar n]
    else digitsGo fuel (n / 10) ++ [digitChar (n % 10)]

/-- The decimal digit string of `n`, mirroring Python's `str`/`repr` of a
nonnegative int (no leading zeros, `0 ↦ "0"`). -/
def natDigits (n : Nat) : List Char :=
  digitsGo (n + 1) n

/-- Python's `f"{num:04d}"`: the decimal digits of `num`, left-padded with
`'0'` to at least four characters. -/
def pad4 (n : Nat) : Str :=
  List.replicate (4 - (natDigits n).length) '0' ++ natDigits n

/-- Python's `int(...)` on a string of decimal digits: left fold of the
digit values. -/
def intOfChars (cs : Str) : Nat :=
  cs.foldl (fun n c => n * 10 + (c.toNat - '0'.toNat)) 0

/-- Python's `tid.split("-")[-1]`: the segment after the last `'-'`
(the whole string when there is no dash). -/
def lastSeg (cs : Str) : Str :=
  cs.foldl (fun acc c => if c = '-' then [] else acc ++ [c]) []

/-- Python's `s.startswith(p)`. -/
def startsWith : Str → Str → Bool
  | [], _ => true
  | _ :: _, [] => false
  | p :: ps, c :: cs => decide (p = c) && startsWith ps cs

/-- The date prefix `f"T-{date_part}-"` of a day's ticket ids. -/
def idPre (datePart : Str) : Str :=
  'T' :: '-' :: datePart ++ ['-']

/-- `TicketService.generate_ticket_id`, with the formatted current day
passed in as `datePart`: collect the existing ids sharing today's date
prefix; if there are none the sequence number is `1`, otherwise it is the
maximum of their parsed trailing numbers plus one; return the prefix
followed by the zero-padded number. -/
def generate_ticket_id (datePart : Str) (s : Store) : Str :=
  let pre := idPre datePart
  let existing := (s.tickets.map Ticket.id).filter (fun tid => startsWith pre tid)
  let num :=
    match existing.map (fun tid => intOfChars (lastSeg tid)) with
    | [] => 1
    | n :: rest => rest.foldl Nat.max n + 1
  pre ++ pad4 num

/-! ## Ticket engine operations (`TicketService`) -/

/-- `TicketService.create_ticket`: generate an id, build the ticket with
status `new`, the single seed message from the user, `last_actor = user`,
and insert it into the store. -/
def create_ticket (datePart : Str) (user_id : Nat) (initial_message : Str)
    (username : Option Str) (now : Int) (s : Store) : Ticket × Store :=
  let ticket_id := generate_ticket_id datePart s
  let message : Message := { sender := Sender.user, text := some initial_message, sent_at := now }
  let ticket : Ticket :=
    { id := ticket_id
      user_id := user_id
      username := username
      created_at := now
      status := Status.new
      messages := [message]
      last_activity_at := some now
      last_actor := Sender.user
      assigned := none
      first_response_at := none
      rating := none
      rated := false }
  (ticket, dmCreateTicket ticket s)

/-- `TicketService.add_message`: if the ticket is absent return `None` and
leave the store untouched; otherwise append the message, update
`last_activity_at` and `last_actor`, and — when the sender is support and
no support reply was ever recorded — stamp `first_response_at` and (when a
truthy `admin_id` was passed) assign the admin.  No status guard. -/
def add_message (ticket_id : Str) (sender : Sender) (text : Option Str)
    (admin_id : Option Nat) (now : Int) (s : Store) : Option Ticket × Store :=
  match get_ticket ticket_id s with
  | none => (none, s)
  | some t =>
    let t1 := { t with
      messages := t.messages ++ [{ sender := sender, text := text, sent_at := now }]
      last_activity_at := some now
      last_actor := sender }
    let t2 :=
      if sender = Sender.support ∧ t.first_response_at = none then
        { t1 with
          first_response_at := some now
          assigned := if admin_id.getD 0 ≠ 0 then admin_id else t1.assigned }
      else t1
    (some t2, update_ticket t2 s)

/-- `TicketService.take_ticket`: if the ticket is absent return `None`;
otherwise set status to `working`, assign the admin and touch the activity
timestamp — from any prior status, there is no guard. -/
def take_ticket (ticket_id : Str) (admin_id : Nat) (now : Int) (s : Store) :
    Option Ticket × Store :=
  match get_ticket ticket_id s with
  | none => (none, s)
  | some t =>
    let t1 := { t with
      status := Status.working
      assigned := some admin_id
      last_activity_at := some now }
    (some t1, update_ticket t1 s)

/-- `TicketService.close_ticket`: if the ticket is absent return `None`;
otherwise set status to `done` and touch the activity timestamp. -/
def close_ticket (ticket_id : Str) (now : Int) (s : Store) :
    Option Ticket × Store :=
  match get_ticket ticket_id s with
  | none => (none, s)
  | some t =>
    let t1 := { t with
      status := Status.done
      last_activity_at := some now }
    (some t1, update_ticket t1 s)

/-- `TicketService.rate_ticket`: if the ticket is absent return `None`;
otherwise set `rated := true` and the rating value — no status guard. -/
def rate_ticket (ticket_id : Str) (rating : Nat) (s : Store) :
    Option Ticket × Store :=
  match get_ticket ticket_id s with
  | none => (none, s)
  | some t =>
    let t1 := { t with
      rated := true
      rating := some rating }
    (some t1, update_ticket t1 s)

/-- `TicketService.get_user_active_ticket`'s candidate list: the user's
tickets with status `new` or `working`, in store order. -/
def userActive (user_id : Nat) (s : Store) : List Ticket :=
  s.tickets.filter (fun t =>
    decide (t.user_id = user_id) &&
    (decide (t.status = Status.new) || decide (t.status = Status.working)))

/-- Python's `max(tickets, key=lambda t: t.created_at)` on a nonempty list:
left fold that replaces the current maximum only on a strictly greater key
(so the first maximal element wins on ties). -/
def maxByCreated (t : Ticket) (ts : List Ticket) : Ticket :=
  ts.foldl (fun acc u => if acc.created_at < u.created_at then u else acc) t

/-- `TicketService.get_user_active_ticket`: `None` when the user has no
`new`/`working` ticket, otherwise the candidate with the latest
`created_at`. -/
def get_user_active_ticket (user_id : Nat) (s : Store) : Option Ticket :=
  match userActive user_id s with
  | [] => none
  | t :: ts => some (maxByCreated t ts)

/-! ## Auto-close sweeper (`auto_close_inactive_tickets`) -/

/-- The sweep's `last_activity` value: `last_activity_at`, falling back to
`created_at` when absent. -/
def effectiveActivity (t : Ticket) : Int :=
  t.last_activity_at.getD t.created_at

/-- The sweeper's per-ticket closing condition (Boolean, mirroring the
source): status open (`new`/`working`), last actor `support`, and
`last_activity < now - hours` (strict). -/
def autoCloseEligibleb (now hours : Int) (t : Ticket) : Bool :=
  (decide (t.status = Status.new) || decide (t.status = Status.working)) &&
  decide (t.last_actor = Sender.support) &&
  decide (effectiveActivity t < now - hours * 3600)

/-- The closed version of a ticket the sweeper produces:
`ticket.status = "done"; ticket.last_activity_at = now`. -/
def sweepClose (now : Int) (t : Ticket) : Ticket :=
  { t with status := Status.done, last_activity_at := some now }

/-- One run of `auto_close_inactive_tickets`, with `now` and the configured
`AUTO_CLOSE_AFTER_HOURS` passed in: iterate over the snapshot of open
tickets; for each one whose last actor is support and whose effective last
activity is strictly before the threshold, store the closed version via
`update_ticket` (which saves). -/
def auto_close_inactive_tickets (now hours : Int) (s : Store) : Store :=
  let openTickets := s.tickets.filter (fun t =>
    decide (t.status = Status.new) || decide (t.status = Status.working))
  openTickets.foldl
    (fun acc t =>
      if autoCloseEligibleb now hours t then update_ticket (sweepClose now t) acc
      else acc)
    s

/-! ## Feedback cooldown (`FeedbackService.check_cooldown`)

Time is modelled at second granularity: the stored last-submission
timestamp and the current time are integer epoch seconds. -/

/-- `FeedbackService.check_cooldown`, with the configuration
(`FEEDBACK_COOLDOWN_ENABLED`, `FEEDBACK_COOLDOWN_HOURS`) and the stored
last-submission timestamp passed in.  Returns `(can_send, wait_hours)`
where `wait_hours` models the localized wait message through the
`hours=remaining` value it interpolates. -/
def check_cooldown (enabled : Bool) (cooldownHours : Nat) (lastTime : Option Int)
    (now : Int) : Bool × Option Int :=
  if !enabled then (true, none)
  else
    match lastTime with
    | none => (true, none)
    | some last =>
      let elapsed : Int := now - last
      let need : Int := (cooldownHours : Int) * 3600
      if need ≤ elapsed then (true, none)
      else (false, some ((need - elapsed + 3599).fdiv 3600))

/-! ## Admin screen registry (`show_admin_screen`)

The transport is an external collaborator; its behaviour at the two call
sites is passed in as outcomes: `edit` is what `bot.edit_message_text`
would do (succeed, raise "Message is not modified", or raise anything
else), `send` is the message id `bot.send_message` would return (`none`
when it raises). -/

/-- Outcome of the transport's edit call. -/
inductive EditOutcome where
  | success
  | notModified
  | failed
deriving DecidableEq, Repr

/-- Observable transport actions of one `show_admin_screen` call, in
order. -/
inductive ScreenAction where
  | editAttempt (msgId : Nat)
  | sendNew
deriving DecidableEq, Repr

/-- Result of one `show_admin_screen` call: the returned message id, the
new value of `ADMIN_SCREEN_MESSAGES[screen_type]`, and the transport
actions taken. -/
structure RenderResult where
  returned : Option Nat
  recorded : Option Nat
  actions : List ScreenAction
deriving DecidableEq, Repr

/-- `utils/admin_screen.py show_admin_screen`, for one screen type:
the current message id is the callback's message id when the update is a
callback, otherwise the id stored in `ADMIN_SCREEN_MESSAGES[screen_type]`;
if present, edit it — success and "Message is not modified" keep and
re-record that id; on any other edit failure, or when no id is available,
send a new message and record its id (the record is left untouched when
the send itself fails, and `None` is returned). -/
def show_admin_screen (callbackMsg stored : Option Nat) (edit : EditOutcome)
    (send : Option Nat) : RenderResult :=
  let current := match callbackMsg with
    | some c => some c
    | none => stored
  match current with
  | some m =>
    match edit with
    | EditOutcome.success => ⟨some m, some m, [ScreenAction.editAttempt m]⟩
    | EditOutcome.notModified => ⟨some m, some m, [ScreenAction.editAttempt m]⟩
    | EditOutcome.failed =>
      match send with
      | some mid => ⟨some mid, some mid, [ScreenAction.editAttempt m, ScreenAction.sendNew]⟩
      | none => ⟨none, stored, [ScreenAction.editAttempt m, ScreenAction.sendNew]⟩
  | none =>
    match send with
    | some mid => ⟨some mid, some mid, [ScreenAction.sendNew]⟩
    | none => ⟨none, stored, [ScreenAction.sendNew]⟩

/-! ## Persistence (`DataManager.save` / `DataManager.load` /
`DataManager._safe_write_json`)

`storage/models.py` is not part of the sources; the serialized ticket form
and `Ticket.to_dict`/`Ticket.from_dict` below are modelled from the spec. -/

/-- The serialized status string. -/
def statusToStr : Status → Str
  | Status.new => "new".data
  | Status.working => "working".data
  | Status.done => "done".data

/-- Parsing a status string back; unknown strings fail. -/
def strToStatus (s : Str) : Option Status :=
  if s = "new".data then some Status.new
  else if s = "working".data then some Status.working
  else if s = "done".data then some Status.done
  else none

/-- The serialized sender string. -/
def senderToStr : Sender → Str
  | Sender.user => "user".data
  | Sender.support => "support".data

/-- Parsing a sender string back; unknown strings fail. -/
def strToSender (s : Str) : Option Sender :=
  if s = "user".data then some Sender.user
  else if s = "support".data then some Sender.support
  else none

/-- Modelled from the spec: timestamps are persisted as ISO-8601 strings;
with epoch-second timestamps the encoding is modelled as the signed
decimal numeral, which is injective — "equal up to serialization
precision" is equality at second granularity. -/
def isoOfTime (t : Int) : Str :=
  if t < 0 then '-' :: natDigits (-t).toNat
  else natDigits t.toNat

/-- Parsing the serialized timestamp back. -/
def timeOfIso (s : Str) : Int :=
  match s with
  | c :: rest => if c = '-' then -(intOfChars rest : Int) else (intOfChars (c :: rest) : Int)
  | [] => (intOfChars [] : Int)

/-- A serialized message: sender string, optional text, timestamp
string. -/
structure JMessage where
  sender : Str
  text : Option Str
  sent_at : Str
deriving DecidableEq, Repr

/-- Modelled from the spec: the dict form of a ticket written by
`Ticket.to_dict` (`storage/models.py`, not under `src/`), carrying all
Ticket fields with ISO-8601 timestamps (§6 of the spec). -/
structure JTicket where
  id : Str
  user_id : Nat
  username : Option Str
  created_at : Str
  status : Str
  messages : List JMessage
  last_activity_at : Option Str
  last_actor : Str
  assigned : Option Nat
  first_response_at : Option Str
  rating : Option Nat
  rated : Bool
deriving DecidableEq, Repr

/-- Modelled from the spec: `Ticket.to_dict` serializes every field,
statuses and sender roles as their strings, timestamps as ISO-8601. -/
def to_dict (t : Ticket) : JTicket :=
  { id := t.id
    user_id := t.user_id
    username := t.username
    created_at := isoOfTime t.created_at
    status := statusToStr t.status
    messages := t.messages.map (fun m =>
      { sender := senderToStr m.sender, text := m.text, sent_at := isoOfTime m.sent_at })
    last_activity_at := t.last_activity_at.map isoOfTime
    last_actor := senderToStr t.last_actor
    assigned := t.assigned
    first_response_at := t.first_response_at.map isoOfTime
    rating := t.rating
    rated := t.rated }

/-- Modelled from the spec: `Ticket.from_dict` rebuilds a ticket from its
dict form, failing (raising, in the source) on malformed enumeration
strings. -/
def from_dict (j : JTicket) : Option Ticket := do
  let status ← strToStatus j.status
  let lastActor ← strToSender j.last_actor
  let messages ← j.messages.mapM (fun m =>
    (strToSender m.sender).map (fun sd =>
      { sender := sd, text := m.text, sent_at := timeOfIso m.sent_at : Message }))
  some
    { id := j.id
      user_id := j.user_id
      username := j.username
      created_at := timeOfIso j.created_at
      status := status
      messages := messages
      last_activity_at := j.last_activity_at.map timeOfIso
      last_actor := lastActor
      assigned := j.assigned
      first_response_at := j.first_response_at.map timeOfIso
      rating := j.rating
      rated := j.rated }

/-- The JSON document written to disk: top-level keys `tickets`, `users`,
`feedbacks`, `feedback_cooldowns`; the non-ticket collections are stored
and loaded as raw dictionaries. -/
structure Payload where
  tickets : List (Str × JTicket)
  users : List (Str × Str)
  feedbacks : List (Str × Str)
  cooldowns : List (Str × Str)
deriving DecidableEq, Repr

/-- The in-memory state of the data manager after a load. -/
structure DMData where
  tickets : List (Str × Ticket)
  users : List (Str × Str)
  feedbacks : List (Str × Str)
  cooldowns : List (Str × Str)
deriving DecidableEq, Repr

/-- The empty storage `load()` starts with on total failure. -/
def emptyData : DMData :=
  { tickets := [], users := [], feedbacks := [], cooldowns := [] }

/-- One file on disk, as `_load_from_path` can observe it: missing, present
but not valid JSON (also the state of a half-written file), or a complete
JSON document. -/
inductive FileRead where
  | missing
  | corrupt
  | ok (payload : Payload)
deriving DecidableEq, Repr

/-- `DataManager._load_from_path`: the parsed document, or `None` when the
file is missing or corrupt. -/
def load_from_path : FileRead → Option Payload
  | FileRead.missing => none
  | FileRead.corrupt => none
  | FileRead.ok p => some p

/-- The relevant file system: the primary snapshot (`DATA_FILE`), its
backup (`DATA_FILE.bak`) and the temporary write path (`DATA_FILE.tmp`). -/
structure FS where
  primary : FileRead
  backup : FileRead
  tmp : FileRead
deriving DecidableEq, Repr

/-- Decoding all tickets of a document; fails if any single ticket does. -/
def decodeTickets (l : List (Str × JTicket)) : Option (List (Str × Ticket)) :=
  l.mapM (fun p => (from_dict p.2).map (fun t => (p.1, t)))

/-- The `try` block of `DataManager.load`: rebuild the in-memory state from
a parsed document; any ticket parse failure resets everything to empty. -/
def parseData (p : Payload) : DMData :=
  match decodeTickets p.tickets with
  | some ts =>
    { tickets := ts, users := p.users, feedbacks := p.feedbacks, cooldowns := p.cooldowns }
  | none => emptyData

/-- `DataManager.load`: read the primary snapshot; on failure fall back to
the `.bak` snapshot; on total failure start with empty storage.  The
temporary path is never consulted. -/
def load (fs : FS) : DMData :=
  match load_from_path fs.primary with
  | some p => parseData p
  | none =>
    match load_from_path fs.backup with
    | some p => parseData p
    | none => emptyData

/-- `DataManager.save`: serialize the whole state into the output
document. -/
def save (d : DMData) : Payload :=
  { tickets := d.tickets.map (fun p => (p.1, to_dict p.2))
    users := d.users
    feedbacks := d.feedbacks
    cooldowns := d.cooldowns }

/-- `DataManager._safe_write_json` completed: write the temp file, rotate
the existing primary to `.bak` (skipped when the primary does not exist),
atomically rename temp to primary. -/
def safe_write_json (fs : FS) (p : Payload) : FS :=
  let s1 : FS := { fs with tmp := FileRead.ok p }
  let s2 : FS :=
    if s1.primary ≠ FileRead.missing then
      { s1 with primary := FileRead.missing, backup := s1.primary }
    else s1
  { s2 with primary := s2.tmp, tmp := FileRead.missing }

/-- Every observable file-system state during `_safe_write_json`, in
order: before anything; with a half-written temp file; with the temp file
complete; after the backup rotation; after the final rename. -/
def safeWriteStates (fs : FS) (p : Payload) : List FS :=
  let sHalf : FS := { fs with tmp := FileRead.corrupt }
  let s1 : FS := { fs with tmp := FileRead.ok p }
  let s2 : FS :=
    if s1.primary ≠ FileRead.missing then
      { s1 with primary := FileRead.missing, backup := s1.primary }
    else s1
  let s3 : FS := { s2 with primary := s2.tmp, tmp := FileRead.missing }
  [fs, sHalf, s1, s2, s3]

/-! ## Engine operation sequences -/

/-- One engine operation, as dispatched by the handlers or the
scheduler. -/
inductive EngineOp where
  | create (datePart : Str) (uid : Nat) (msg : Str) (un : Option Str) (now : Int)
  | add (tid : Str) (sender : Sender) (text : Option Str) (admin : Option Nat) (now : Int)
  | take (tid : Str) (admin : Nat) (now : Int)
  | close (tid : Str) (now : Int)
  | rate (tid : Str) (r : Nat)
  | sweep (now : Int) (hours : Int)

/-- Applying one engine operation to the store. -/
def applyOp : EngineOp → Store → Store
  | EngineOp.create dp uid msg un now, s => (create_ticket dp uid msg un now s).2
  | EngineOp.add tid sender text admin now, s => (add_message tid sender text admin now s).2
  | EngineOp.take tid admin now, s => (take_ticket tid admin now s).2
  | EngineOp.close tid now, s => (close_ticket tid now s).2
  | EngineOp.rate tid r, s => (rate_ticket tid r s).2
  | EngineOp.sweep now hours, s => auto_close_inactive_tickets now hours s

/-- Running a sequence of engine operations. -/
def runOps (ops : List EngineOp) (s : Store) : Store :=
  ops.foldl (fun acc op => applyOp op acc) s

/-- The turn-actor invariant: `last_actor` is the sender of the most
recently appended message (in particular the message list is nonempty). -/
def lastActorOk (t : Ticket) : Prop :=
  (t.messages.map Message.sender).getLast? = some t.last_actor

instance (t : Ticket) : Decidable (lastActorOk t) := by
  unfold lastActorOk; infer_instance

/-- The store-wide turn-actor invariant. -/
def StoreOk (s : Store) : Prop :=
  ∀ t ∈ s.tickets, lastActorOk t

instance (s : Store) : Decidable (StoreOk s) := by
  unfold StoreOk; infer_instance

/-- `N` successive ticket creations on the same (simulated) day. -/
def createN (dp : Str) (uid : Nat) (msg : Str) (un : Option Str) (now : Int)
    (s : Store) : Nat → Store
  | 0 => s
  | k + 1 => (create_ticket dp uid msg un now (createN dp uid msg un now s k)).2

/-- The per-ticket effect of one sweeper run: closed exactly when
eligible, untouched otherwise. -/
def sweepTicketView (now hours : Int) (t : Ticket) : Ticket :=
  if autoCloseEligibleb now hours t then sweepClose now t else t

/-- The ticket-list effect of `update_ticket` (`dmSave` only touches the
counter). -/
def updT (t : Ticket) (ts : List Ticket) : List Ticket :=
  if ts.any (fun u => decide (u.id = t.id)) then
    ts.map (fun u => if u.id = t.id then t else u)
  else ts

/-- A closed ticket fixture. -/
def doneTicket : Ticket :=
  { id := "T-20260101-0001".data
    user_id := 1
    username := none
    created_at := 0
    status := Status.done
    messages := [{ sender := Sender.user, text := some "hi".data, sent_at := 0 }]
    last_activity_at := some 10
    last_actor := Sender.user
    assigned := none
    first_response_at := none
    rating := none
    rated := false }

/-- An open ticket awaiting the user, stale by exactly the auto-close
threshold (24 h) at time `86400`. -/
def boundaryTicket : Ticket :=
  { id := "T-20260101-0001".data
    user_id := 1
    username := none
    created_at := 0
    status := Status.new
    messages := [{ sender := Sender.support, text := some "hi".data, sent_at := 0 }]
    last_activity_at := some 0
    last_actor := Sender.support
    assigned := none
    first_response_at := none
    rating := none
    rated := false }

/-- An open ticket of user 1 created at time 5. -/
def activeA : Ticket :=
  { id := "T-20260101-0002".data
    user_id := 1
    username := none
    created_at := 5
    status := Status.new
    messages := [{ sender := Sender.user, text := some "a".data, sent_at := 5 }]
    last_activity_at := some 5
    last_actor := Sender.user
    assigned := none
    first_response_at := none
    rating := none
    rated := false }

/-- A later open ticket of user 1 created at time 9. -/
def activeB : Ticket :=
  { id := "T-20260101-0003".data
    user_id := 1
    username := none
    created_at := 9
    status := Status.working
    messages := [{ sender := Sender.user, text := some "b".data, sent_at := 9 }]
    last_activity_at := some 9
    last_actor := Sender.user
    assigned := none
    first_response_at := none
    rating := none
    rated := false }

/-- The empty persisted document. -/
def emptyPayload : Payload := ⟨[], [], [], []⟩

/-- A file system whose primary snapshot is readable. -/
def fsPrimaryOk : FS := ⟨FileRead.ok emptyPayload, FileRead.corrupt, FileRead.missing⟩

/-- A file system with a corrupt primary and a readable backup. -/
def fsPrimaryBad : FS := ⟨FileRead.corrupt, FileRead.ok emptyPayload, FileRead.missing⟩

/-- A file system with no readable snapshot at all. -/
def fsAllBad : FS := ⟨FileRead.missing, FileRead.missing, FileRead.missing⟩

/-! ## Helper lemmas: decimal numerals and id parsing -/

theorem digitChar_toNat {d : Nat} (h : d < 10) : (digitChar d).toNat = '0'.toNat + d := by
  interval_cases d <;> decide

theorem digitChar_ne_dash {d : Nat} (h : d < 10) : digitChar d ≠ '-' := by
  interval_cases d <;> decide

theorem intOfChars_append (cs : Str) (c : Char) :
    intOfChars (cs ++ [c]) = intOfChars cs * 10 + (c.toNat - '0'.toNat) := by
  unfold intOfChars
  rw [List.foldl_append]
  rfl

theorem intOfChars_replicate_zero (k : Nat) :
    intOfChars (List.replicate k '0') = 0 := by
  induction k with
  | zero => rfl
  | succ k ih =>
    rw [List.replicate_succ]
    unfold intOfChars at ih ⊢
    rw [List.foldl_cons]
    have h0 : 0 * 10 + ('0'.toNat - '0'.toNat) = 0 := by decide
    rw [h0]
    exact ih

theorem intOfChars_zeros_append (k : Nat) (ds : Str) :
    intOfChars (List.replicate k '0' ++ ds) = intOfChars ds := by
  unfold intOfChars
  rw [List.foldl_append]
  have h := intOfChars_replicate_zero k
  unfold intOfChars at h
  rw [h]

theorem digitsGo_val : ∀ fuel n : Nat, n < fuel → intOfChars (digitsGo fuel n) = n := by
  intro fuel
  induction fuel with
  | zero => intro n h; omega
  | succ fuel ih =>
    intro n h
    unfold digitsGo
    by_cases h10 : n < 10
    · rw [if_pos h10]
      show intOfChars [digitChar n] = n
      unfold intOfChars
      rw [List.foldl_cons]
      show 0 * 10 + ((digitChar n).toNat - '0'.toNat) = n
      rw [digitChar_toNat h10]
      omega
    · rw [if_neg h10]
      have hn : 0 < n := by omega
      have hdiv : n / 10 < n := Nat.div_lt_self hn (by omega)
      have hlt : n / 10 < fuel := by omega
      rw [intOfChars_append, ih (n / 10) hlt]
      have hm : n % 10 < 10 := Nat.mod_lt _ (by omega)
      rw [digitChar_toNat hm]
      have := Nat.div_add_mod n 10
      omega

theorem digitsGo_mem : ∀ (fuel n : Nat) (c : Char), c ∈ digitsGo fuel n →
    ∃ d, d < 10 ∧ c = digitChar d := by
  intro fuel
  induction fuel with
  | zero => intro n c h; simp [digitsGo] at h
  | succ fuel ih =>
    intro n c h
    unfold digitsGo at h
    by_cases h10 : n < 10
    · rw [if_pos h10] at h
      rw [List.mem_singleton] at h
      exact ⟨n, h10, h⟩
    · rw [if_neg h10] at h
      rw [List.mem_append] at h
      rcases h with h | h
      · exact ih _ _ h
      · rw [List.mem_singleton] at h
        exact ⟨n % 10, Nat.mod_lt _ (by omega), h⟩

theorem natDigits_val (n : Nat) : intOfChars (natDigits n) = n :=
  digitsGo_val _ _ (Nat.lt_succ_self n)

theorem dash_not_mem_natDigits (n : Nat) : '-' ∉ natDigits n := by
  intro h
  obtain ⟨d, hd, hc⟩ := digitsGo_mem _ _ _ h
  exact digitChar_ne_dash hd hc.symm

theorem intOfChars_pad4 (n : Nat) : intOfChars (pad4 n) = n := by
  unfold pad4
  rw [intOfChars_zeros_append, natDigits_val]

theorem dash_not_mem_pad4 (n : Nat) : '-' ∉ pad4 n := by
  unfold pad4
  intro h
  rcases List.mem_append.mp h with h | h
  · have := List.eq_of_mem_replicate h
    exact absurd this (by decide)
  · exact dash_not_mem_natDigits n h

theorem lastSeg_append_dash (a b : Str) : lastSeg (a ++ '-' :: b) = lastSeg b := by
  unfold lastSeg
  rw [List.foldl_append, List.foldl_cons]
  simp

theorem lastSeg_foldl_no_dash (cs : Str) (h : '-' ∉ cs) :
    ∀ acc, List.foldl (fun acc c => if c = '-' then [] else acc ++ [c]) acc cs = acc ++ cs := by
  induction cs with
  | nil => intro acc; simp
  | cons c cs ih =>
    intro acc
    have hc : ¬c = '-' := by
      intro he
      exact h (he ▸ List.mem_cons_self c cs)
    have htail : '-' ∉ cs := fun hm => h (List.mem_cons_of_mem c hm)
    rw [List.foldl_cons, if_neg hc, ih htail]
    simp

theorem lastSeg_eq_self (cs : Str) (h : '-' ∉ cs) : lastSeg cs = cs := by
  unfold lastSeg
  rw [lastSeg_foldl_no_dash cs h []]
  simp

theorem lastSeg_gen_id (dp : Str) (n : Nat) :
    lastSeg (idPre dp ++ pad4 n) = pad4 n := by
  have he : idPre dp ++ pad4 n = ('T' :: '-' :: dp) ++ '-' :: pad4 n := by
    simp [idPre]
  rw [he, lastSeg_append_dash, lastSeg_eq_self _ (dash_not_mem_pad4 n)]

theorem num_of_gen_id (dp : Str) (n : Nat) :
    intOfChars (lastSeg (idPre dp ++ pad4 n)) = n := by
  rw [lastSeg_gen_id, intOfChars_pad4]

theorem gen_id_inj (dp : Str) {i j : Nat} (h : idPre dp ++ pad4 i = idPre dp ++ pad4 j) :
    i = j := by
  have := congrArg (fun s => intOfChars (lastSeg s)) h
  simpa [num_of_gen_id] using this

theorem startsWith_append (p x : Str) : startsWith p (p ++ x) = true := by
  induction p with
  | nil => rfl
  | cons c p ih => simp [startsWith, ih]

/-! ## Helper lemmas: left folds with `max` -/

theorem foldl_max_spec (l : List Nat) : ∀ a : Nat,
    a ≤ l.foldl Nat.max a ∧ (∀ x ∈ l, x ≤ l.foldl Nat.max a) ∧
      (l.foldl Nat.max a = a ∨ l.foldl Nat.max a ∈ l) := by
  induction l with
  | nil => intro a; simp
  | cons b l ih =>
    intro a
    rw [List.foldl_cons]
    obtain ⟨h1, h2, h3⟩ := ih (Nat.max a b)
    refine ⟨le_trans (Nat.le_max_left a b) h1, ?_, ?_⟩
    · intro x hx
      rcases List.mem_cons.mp hx with rfl | hx
      · exact le_trans (Nat.le_max_right a x) h1
      · exact h2 x hx
    · rcases h3 with h | h
      · rcases Nat.le_total a b with hab | hab
        · right
          have hm : a.max b = b :=
            Nat.le_antisymm (Nat.max_le.mpr ⟨hab, Nat.le_refl b⟩) (Nat.le_max_right a b)
          rw [h, hm]
          exact List.mem_cons_self b l
        · left
          have hm : a.max b = a :=
            Nat.le_antisymm (Nat.max_le.mpr ⟨Nat.le_refl a, hab⟩) (Nat.le_max_left a b)
          rw [h, hm]
      · right; exact List.mem_cons_of_mem b h

theorem maxByCreated_spec : ∀ (ts : List Ticket) (t : Ticket),
    (maxByCreated t ts = t ∨ maxByCreated t ts ∈ ts)
    ∧ t.created_at ≤ (maxByCreated t ts).created_at
    ∧ ∀ u ∈ ts, u.created_at ≤ (maxByCreated t ts).created_at := by
  intro ts
  induction ts with
  | nil => intro t; simp [maxByCreated]
  | cons u ts ih =>
    intro t
    have hstep : maxByCreated t (u :: ts) =
        maxByCreated (if t.created_at < u.created_at then u else t) ts := by
      unfold maxByCreated
      rw [List.foldl_cons]
    obtain ⟨hmem, hself, hall⟩ := ih (if t.created_at < u.created_at then u else t)
    have ht : t.created_at ≤ (if t.created_at < u.created_at then u else t).created_at := by
      split <;> omega
    have hu : u.created_at ≤ (if t.created_at < u.created_at then u else t).created_at := by
      split <;> omega
    refine ⟨?_, ?_, ?_⟩
    · rw [hstep]
      rcases hmem with h | h
      · rw [h]
        split
        · right; exact List.mem_cons_self u ts
        · left; rfl
      · right; exact List.mem_cons_of_mem u h
    · rw [hstep]; exact le_trans ht hself
    · intro v hv
      rw [hstep]
      rcases List.mem_cons.mp hv with rfl | hv
      · exact le_trans hu hself
      · exact hall v hv

/-! ## Helper lemmas: store updates and the turn-actor invariant -/

theorem update_ticket_tickets (t : Ticket) (s : Store) :
    (update_ticket t s).tickets = updT t s.tickets := by
  by_cases hc : s.tickets.any (fun u => decide (u.id = t.id)) = true
  · simp [update_ticket, updT, dmSave, hc]
  · simp [update_ticket, updT, dmSave, hc]

theorem mem_updT {u t : Ticket} {ts : List Ticket} (h : u ∈ updT t ts) :
    u = t ∨ u ∈ ts := by
  unfold updT at h
  split at h
  · obtain ⟨v, hv, he⟩ := List.mem_map.mp h
    by_cases hid : v.id = t.id
    · rw [if_pos hid] at he
      left; exact he.symm
    · rw [if_neg hid] at he
      right; exact he ▸ hv
  · right; exact h

theorem mem_update_ticket {u t : Ticket} {s : Store}
    (h : u ∈ (update_ticket t s).tickets) : u = t ∨ u ∈ s.tickets := by
  rw [update_ticket_tickets] at h
  exact mem_updT h

theorem mem_dmCreateTicket {u t : Ticket} {s : Store}
    (h : u ∈ (dmCreateTicket t s).tickets) : u = t ∨ u ∈ s.tickets := by
  unfold dmCreateTicket at h
  split at h
  · simp only [dmSave] at h
    obtain ⟨v, hv, he⟩ := List.mem_map.mp h
    by_cases hid : v.id = t.id
    · rw [if_pos hid] at he
      left; exact he.symm
    · rw [if_neg hid] at he
      right; exact he ▸ hv
  · simp only [dmSave] at h
    rcases List.mem_append.mp h with h | h
    · right; exact h
    · left; exact List.mem_singleton.mp h

theorem lastActorOk_same {t t' : Ticket} (hm : t'.messages = t.messages)
    (ha : t'.last_actor = t.last_actor) (h : lastActorOk t) : lastActorOk t' := by
  unfold lastActorOk at *
  rw [hm, ha]
  exact h

theorem lastActorOk_append (ms : List Message) (sender : Sender) (m : Message)
    (hs : m.sender = sender) {t : Ticket} (hm : t.messages = ms ++ [m])
    (ha : t.last_actor = sender) : lastActorOk t := by
  unfold lastActorOk
  rw [hm, ha, List.map_append]
  simp [hs]

theorem sweepClose_lastActorOk {t : Ticket} (h : lastActorOk t) (now : Int) :
    lastActorOk (sweepClose now t) :=
  lastActorOk_same rfl rfl h

theorem sweep_fold_ok (now hours : Int) :
    ∀ (L : List Ticket) (acc : Store),
      (∀ t ∈ L, lastActorOk (sweepClose now t)) → StoreOk acc →
      StoreOk (L.foldl
        (fun acc t =>
          if autoCloseEligibleb now hours t then update_ticket (sweepClose now t) acc
          else acc) acc) := by
  intro L
  induction L with
  | nil => intro acc _ hacc; exact hacc
  | cons t L ih =>
    intro acc hL hacc
    rw [List.foldl_cons]
    apply ih
    · intro u hu; exact hL u (List.mem_cons_of_mem t hu)
    · split
      · intro u hu
        rcases mem_update_ticket hu with rfl | hu'
        · exact hL t (List.mem_cons_self t L)
        · exact hacc u hu'
      · exact hacc

theorem applyOp_ok (op : EngineOp) (s : Store) (h : StoreOk s) :
    StoreOk (applyOp op s) := by
  cases op with
  | create dp uid msg un now =>
    intro u hu
    rcases mem_dmCreateTicket hu with rfl | hu'
    · unfold lastActorOk
      rfl
    · exact h u hu'
  | add tid sender text adm now =>
    show StoreOk (add_message tid sender text adm now s).2
    unfold add_message
    cases hget : get_ticket tid s with
    | none => exact h
    | some t =>
      intro u hu
      simp only at hu
      rcases mem_update_ticket hu with rfl | hu'
      · split
        · exact lastActorOk_append t.messages sender _ rfl rfl rfl
        · exact lastActorOk_append t.messages sender _ rfl rfl rfl
      · exact h u hu'
  | take tid aid now =>
    show StoreOk (take_ticket tid aid now s).2
    unfold take_ticket
    cases hget : get_ticket tid s with
    | none => exact h
    | some t =>
      intro u hu
      simp only at hu
      rcases mem_update_ticket hu with rfl | hu'
      · exact lastActorOk_same rfl rfl (h t (List.mem_of_find?_eq_some hget))
      · exact h u hu'
  | close tid now =>
    show StoreOk (close_ticket tid now s).2
    unfold close_ticket
    cases hget : get_ticket tid s with
    | none => exact h
    | some t =>
      intro u hu
      simp only at hu
      rcases mem_update_ticket hu with rfl | hu'
      · exact lastActorOk_same rfl rfl (h t (List.mem_of_find?_eq_some hget))
      · exact h u hu'
  | rate tid r =>
    show StoreOk (rate_ticket tid r s).2
    unfold rate_ticket
    cases hget : get_ticket tid s with
    | none => exact h
    | some t =>
      intro u hu
      simp only at hu
      rcases mem_update_ticket hu with rfl | hu'
      · exact lastActorOk_same rfl rfl (h t (List.mem_of_find?_eq_some hget))
      · exact h u hu'
  | sweep now hours =>
    show StoreOk (auto_close_inactive_tickets now hours s)
    unfold auto_close_inactive_tickets
    apply sweep_fold_ok
    · intro t ht
      exact sweepClose_lastActorOk (h t (List.mem_of_mem_filter ht)) now
    · exact h

/-! ## Claim theorems -/

/-- C8: with the cooldown enabled and a prior submission of the category at
`t0` under a window of `H` hours, `check_cooldown` strictly before
`t0 + H` hours reports blocked with a wait value that is the remaining
time rounded up to whole hours (the unique `r` with
`(r-1)·3600 < remaining ≤ r·3600`) and is at least 1; at `t0 + H` hours
or later it reports allowed with no message. -/
theorem check_cooldown_spec (H : Nat) (t0 now : Int) :
    (now < t0 + (H : Int) * 3600 →
      ∃ r : Int, check_cooldown true H (some t0) now = (false, some r) ∧
        1 ≤ r ∧ (r - 1) * 3600 < t0 + (H : Int) * 3600 - now ∧
        t0 + (H : Int) * 3600 - now ≤ r * 3600)
    ∧ (t0 + (H : Int) * 3600 ≤ now →
      check_cooldown true H (some t0) now = (true, none)) := by
  have hc : check_cooldown true H (some t0) now =
      (if (H : Int) * 3600 ≤ now - t0 then ((true : Bool), (none : Option Int))
       else (false, some (((H : Int) * 3600 - (now - t0) + 3599).fdiv 3600))) := rfl
  constructor
  · intro hlt
    rw [hc, if_neg (by omega)]
    refine ⟨((H : Int) * 3600 - (now - t0) + 3599).fdiv 3600, rfl, ?_⟩
    rw [Int.fdiv_eq_ediv _ (by omega)]
    omega
  · intro hge
    rw [hc, if_pos (by omega)]

/-- Witness for C8 at `H = 24`, `t0 = 0`, checked at `86399` (one second
early: blocked, one hour remaining) and at `86400` (allowed). -/
theorem check_cooldown_spec_witness :
    ((86399 : Int) < 0 + (24 : Nat) * 3600 ∧
      ∃ r : Int, check_cooldown true 24 (some 0) 86399 = (false, some r) ∧
        1 ≤ r ∧ (r - 1) * 3600 < 0 + ((24 : Nat) : Int) * 3600 - 86399 ∧
        0 + ((24 : Nat) : Int) * 3600 - 86399 ≤ r * 3600) ∧
    ((0 : Int) + (24 : Nat) * 3600 ≤ 86400 ∧
      check_cooldown true 24 (some 0) 86400 = (true, none)) :=
  ⟨⟨by norm_num, (check_cooldown_spec 24 0 86399).1 (by norm_num)⟩,
   ⟨by norm_num, (check_cooldown_spec 24 0 86400).2 (by norm_num)⟩⟩

/-- C10: on an absent ticket id, `add_message`, `take_ticket`,
`close_ticket` and `rate_ticket` return `None` and leave the whole store
(tickets and save counter) unchanged, and the store-level `update_ticket`
is a no-op that does not save. -/
theorem absent_ticket_noop (tid : Str) (s : Store) (h : get_ticket tid s = none)
    (sender : Sender) (text : Option Str) (adm : Option Nat) (now : Int)
    (aid r : Nat) :
    add_message tid sender text adm now s = (none, s)
    ∧ take_ticket tid aid now s = (none, s)
    ∧ close_ticket tid now s = (none, s)
    ∧ rate_ticket tid r s = (none, s)
    ∧ ∀ t : Ticket, t.id = tid → update_ticket t s = s := by
  have hupd : ∀ t : Ticket, t.id = tid → update_ticket t s = s := by
    intro t ht
    unfold update_ticket
    rw [if_neg]
    intro hany
    rw [List.any_eq_true] at hany
    obtain ⟨u, hu, hdec⟩ := hany
    rw [decide_eq_true_eq] at hdec
    have hn := List.find?_eq_none.mp h u hu
    rw [ht] at hdec
    exact hn (by simp [hdec])
  exact ⟨by simp [add_message, h], by simp [take_ticket, h],
    by simp [close_ticket, h], by simp [rate_ticket, h], hupd⟩

/-- Witness for C10: the empty store and the id `"x"`. -/
theorem absent_ticket_noop_witness :
    get_ticket "x".data (Store.mk [] 0) = none ∧
    (add_message "x".data Sender.user none none 0 (Store.mk [] 0) = (none, Store.mk [] 0)
      ∧ take_ticket "x".data 7 0 (Store.mk [] 0) = (none, Store.mk [] 0)
      ∧ close_ticket "x".data 0 (Store.mk [] 0) = (none, Store.mk [] 0)
      ∧ rate_ticket "x".data 5 (Store.mk [] 0) = (none, Store.mk [] 0)
      ∧ ∀ t : Ticket, t.id = "x".data → update_ticket t (Store.mk [] 0) = Store.mk [] 0) :=
  ⟨rfl, absent_ticket_noop "x".data (Store.mk [] 0) rfl Sender.user none none 0 7 5⟩

/-- C3 counterexample: the engine has no status guard, so `add_message`
and `take_ticket` modify a ticket whose status is `done`: on the concrete
closed ticket `doneTicket`, `add_message` returns a ticket different from
the original and changes the store, and `take_ticket` returns a ticket
different from the original (its status is back to `working`). -/
theorem done_ticket_mutable_cex :
    doneTicket.status = Status.done
    ∧ (add_message doneTicket.id Sender.user (some "more".data) none 99
        (Store.mk [doneTicket] 0)).1 ≠ some doneTicket
    ∧ (add_message doneTicket.id Sender.user (some "more".data) none 99
        (Store.mk [doneTicket] 0)).2 ≠ Store.mk [doneTicket] 0
    ∧ (take_ticket doneTicket.id 7 99 (Store.mk [doneTicket] 0)).1 ≠ some doneTicket := by
  decide

/-- C3 (amended): a `done` ticket is not immutable; `rate_ticket` changes
exactly the rating fields, while `add_message` still appends the message
and updates `last_actor`/`last_activity_at` (leaving the status `done`),
and `take_ticket` moves the ticket back to `working` with a fresh
assignment and activity timestamp. -/
theorem done_ticket_behavior (tid : Str) (s : Store) (t : Ticket)
    (hget : get_ticket tid s = some t) (hdone : t.status = Status.done)
    (sender : Sender) (text : Option Str) (adm : Option Nat) (now : Int)
    (aid r : Nat) :
    (rate_ticket tid r s).1 = some { t with rated := true, rating := some r }
    ∧ (take_ticket tid aid now s).1 =
        some { t with status := Status.working, assigned := some aid,
                      last_activity_at := some now }
    ∧ ∃ t', (add_message tid sender text adm now s).1 = some t'
        ∧ t'.messages = t.messages ++ [{ sender := sender, text := text, sent_at := now }]
        ∧ t'.last_actor = sender
        ∧ t'.last_activity_at = some now
        ∧ t'.status = Status.done := by
  refine ⟨by simp [rate_ticket, hget], by simp [take_ticket, hget], ?_⟩
  unfold add_message
  rw [hget]
  refine ⟨_, rfl, ?_⟩
  split <;> simp [hdone]

/-- Witness for C3 (amended): the fixture `doneTicket` in a singleton
store. -/
theorem done_ticket_behavior_witness :
    get_ticket doneTicket.id (Store.mk [doneTicket] 0) = some doneTicket
    ∧ doneTicket.status = Status.done
    ∧ ((rate_ticket doneTicket.id 5 (Store.mk [doneTicket] 0)).1 =
          some { doneTicket with rated := true, rating := some 5 }
        ∧ (take_ticket doneTicket.id 7 99 (Store.mk [doneTicket] 0)).1 =
            some { doneTicket with status := Status.working, assigned := some 7,
                                   last_activity_at := some 99 }
        ∧ ∃ t', (add_message doneTicket.id Sender.support (some "pong".data) (some 7) 99
              (Store.mk [doneTicket] 0)).1 = some t'
            ∧ t'.messages = doneTicket.messages ++
                [{ sender := Sender.support, text := some "pong".data, sent_at := 99 }]
            ∧ t'.last_actor = Sender.support
            ∧ t'.last_activity_at = some 99
            ∧ t'.status = Status.done) :=
  ⟨by decide, rfl,
    done_ticket_behavior doneTicket.id (Store.mk [doneTicket] 0) doneTicket (by decide) rfl
      Sender.support (some "pong".data) (some 7) 99 7 5⟩

/-- C9 counterexample: invoked from a callback whose message id (200)
differs from anything on record (here: nothing is on record), the renderer
edits the callback's message instead of sending a new message as the claim
requires when no id is on record: no send happens and the callback id is
recorded. -/
theorem show_admin_screen_callback_cex :
    show_admin_screen (some 200) none EditOutcome.success (some 5)
      = ⟨some 200, some 200, [ScreenAction.editAttempt 200]⟩
    ∧ ScreenAction.sendNew ∉
        (show_admin_screen (some 200) none EditOutcome.success (some 5)).actions := by
  decide

/-- C9 (amended): outside a callback the renderer follows the screen
contract — edit the recorded id, treat "not modified" as success, send a
new message and record its id exactly when no id is on record or the edit
fails otherwise; inside a callback the callback's message id takes the
place of the recorded id and is edited first; rendering the same content
twice leaves exactly one recorded live message, with the second render
editing the previously recorded id and sending nothing. -/
theorem show_admin_screen_spec (stored : Option Nat) (edit : EditOutcome)
    (send : Option Nat) (c m mid : Nat) :
    show_admin_screen none (some m) EditOutcome.success send
        = ⟨some m, some m, [ScreenAction.editAttempt m]⟩
    ∧ show_admin_screen none (some m) EditOutcome.notModified send
        = ⟨some m, some m, [ScreenAction.editAttempt m]⟩
    ∧ show_admin_screen none (some m) EditOutcome.failed (some mid)
        = ⟨some mid, some mid, [ScreenAction.editAttempt m, ScreenAction.sendNew]⟩
    ∧ show_admin_screen none none edit (some mid)
        = ⟨some mid, some mid, [ScreenAction.sendNew]⟩
    ∧ (show_admin_screen (some c) stored edit send).actions.head?
        = some (ScreenAction.editAttempt c)
    ∧ show_admin_screen none (show_admin_screen none none edit (some mid)).recorded
        EditOutcome.notModified send
        = ⟨some mid, some mid, [ScreenAction.editAttempt mid]⟩ := by
  refine ⟨rfl, rfl, rfl, rfl, ?_, rfl⟩
  cases edit <;> cases send <;> rfl

/-- C4: `get_user_active_ticket` returns `None` exactly when the user has
no ticket with status `new` or `working`; otherwise it returns one of the
user's open tickets, maximal with respect to `created_at`. -/
theorem get_user_active_ticket_spec (uid : Nat) (s : Store) :
    (get_user_active_ticket uid s = none ↔
      ∀ t ∈ s.tickets,
        ¬(t.user_id = uid ∧ (t.status = Status.new ∨ t.status = Status.working)))
    ∧ ∀ t, get_user_active_ticket uid s = some t →
        t ∈ userActive uid s ∧ ∀ u ∈ userActive uid s, u.created_at ≤ t.created_at := by
  refine ⟨⟨?_, ?_⟩, ?_⟩
  · intro h t ht hcond
    have hmem : t ∈ userActive uid s := by
      unfold userActive
      rw [List.mem_filter]
      refine ⟨ht, ?_⟩
      rcases hcond.2 with h2 | h2 <;> simp [hcond.1, h2]
    cases hu : userActive uid s with
    | nil => rw [hu] at hmem; exact absurd hmem (List.not_mem_nil t)
    | cons a l =>
      unfold get_user_active_ticket at h
      rw [hu] at h
      exact Option.noConfusion h
  · intro h
    unfold get_user_active_ticket
    have hnil : userActive uid s = [] := by
      unfold userActive
      rw [List.filter_eq_nil_iff]
      intro t ht hb
      apply h t ht
      simp at hb
      exact hb
    rw [hnil]
  · intro t h
    cases hu : userActive uid s with
    | nil =>
      unfold get_user_active_ticket at h
      rw [hu] at h
      exact Option.noConfusion h
    | cons a l =>
      unfold get_user_active_ticket at h
      rw [hu] at h
      have ht : maxByCreated a l = t := Option.some.inj h
      obtain ⟨hmem, hself, hall⟩ := maxByCreated_spec l a
      constructor
      · rw [← ht]
        rcases hmem with hm | hm
        · rw [hm]; exact List.mem_cons_self a l
        · exact List.mem_cons_of_mem a hm
      · intro u hu'
        rw [← ht]
        rcases List.mem_cons.mp hu' with rfl | hm
        · exact hself
        · exact hall u hm

/-- Witness for C4: user 1 with two open tickets created at times 5 and 9
— the later one (`activeB`) is returned, and it is maximal. -/
theorem get_user_active_ticket_spec_witness :
    get_user_active_ticket 1 (Store.mk [activeA, activeB] 0) = some activeB
    ∧ (activeB ∈ userActive 1 (Store.mk [activeA, activeB] 0)
        ∧ ∀ u ∈ userActive 1 (Store.mk [activeA, activeB] 0),
            u.created_at ≤ activeB.created_at) :=
  ⟨by decide,
    (get_user_active_ticket_spec 1 (Store.mk [activeA, activeB] 0)).2 activeB (by decide)⟩

/-- C2: after any sequence of engine operations `last_actor` is the sender
of the most recently appended message: the invariant `StoreOk` is
preserved by every operation sequence; `create_ticket` produces the ticket
with the single user seed message and `last_actor = user`; and whenever
`add_message` succeeds it has appended its message and set `last_actor`
to the sender and `last_activity_at` to `now` — with no hypothesis on the
ticket's status. -/
theorem last_actor_invariant :
    (∀ (ops : List EngineOp) (s : Store), StoreOk s → StoreOk (runOps ops s))
    ∧ (∀ (dp : Str) (uid : Nat) (msg : Str) (un : Option Str) (now : Int) (s : Store),
        (create_ticket dp uid msg un now s).1.last_actor = Sender.user
        ∧ (create_ticket dp uid msg un now s).1.messages
            = [{ sender := Sender.user, text := some msg, sent_at := now }]
        ∧ lastActorOk (create_ticket dp uid msg un now s).1)
    ∧ (∀ (tid : Str) (sender : Sender) (text : Option Str) (adm : Option Nat)
        (now : Int) (s : Store) (t' : Ticket),
        (add_message tid sender text adm now s).1 = some t' →
          t'.last_actor = sender
          ∧ t'.last_activity_at = some now
          ∧ (t'.messages.map Message.sender).getLast? = some sender
          ∧ ∃ t, get_ticket tid s = some t
              ∧ t'.messages = t.messages
                  ++ [{ sender := sender, text := text, sent_at := now }]) := by
  refine ⟨?_, ?_, ?_⟩
  · intro ops
    induction ops with
    | nil => intro s h; exact h
    | cons op ops ih =>
      intro s h
      exact ih (applyOp op s) (applyOp_ok op s h)
  · intro dp uid msg un now s
    exact ⟨rfl, rfl, rfl⟩
  · intro tid sender text adm now s t' h
    unfold add_message at h
    cases hget : get_ticket tid s with
    | none => rw [hget] at h; exact Option.noConfusion h
    | some t =>
      rw [hget] at h
      simp only at h
      have ht' := (Option.some.inj h).symm
      subst ht'
      refine ⟨?_, ?_, ?_, t, rfl, ?_⟩ <;> split <;> simp

/-- Witness for C2: a one-ticket store satisfying the invariant, a `take`
operation preserving it, and a successful support `add_message` whose
result carries the support sender as last actor. -/
theorem last_actor_invariant_witness :
    (StoreOk (Store.mk [activeA] 0)
      ∧ StoreOk (runOps [EngineOp.take activeA.id 7 99] (Store.mk [activeA] 0)))
    ∧ ((add_message activeA.id Sender.support none (some 7) 99 (Store.mk [activeA] 0)).1
          = some { activeA with
                    messages := activeA.messages
                      ++ [{ sender := Sender.support, text := none, sent_at := 99 }]
                    last_activity_at := some 99
                    last_actor := Sender.support
                    first_response_at := some 99
                    assigned := some 7 }
        ∧ ({ activeA with
              messages := activeA.messages
                ++ [{ sender := Sender.support, text := none, sent_at := 99 }]
              last_activity_at := some 99
              last_actor := Sender.support
              first_response_at := some 99
              assigned := some 7 : Ticket }.last_actor = Sender.support
          ∧ ({ activeA with
                messages := activeA.messages
                  ++ [{ sender := Sender.support, text := none, sent_at := 99 }]
                last_activity_at := some 99
                last_actor := Sender.support
                first_response_at := some 99
                assigned := some 7 : Ticket }.last_activity_at = some 99
          ∧ (({ activeA with
                messages := activeA.messages
                  ++ [{ sender := Sender.support, text := none, sent_at := 99 }]
                last_activity_at := some 99
                last_actor := Sender.support
                first_response_at := some 99
                assigned := some 7 : Ticket }.messages.map Message.sender).getLast?
              = some Sender.support
          ∧ ∃ t, get_ticket activeA.id (Store.mk [activeA] 0) = some t
              ∧ ({ activeA with
                    messages := activeA.messages
                      ++ [{ sender := Sender.support, text := none, sent_at := 99 }]
                    last_activity_at := some 99
                    last_actor := Sender.support
                    first_response_at := some 99
                    assigned := some 7 : Ticket }.messages = t.messages
                  ++ [{ sender := Sender.support, text := none, sent_at := 99 }]))))) :=
  ⟨⟨by decide, last_actor_invariant.1 [EngineOp.take activeA.id 7 99]
      (Store.mk [activeA] 0) (by decide)⟩,
    ⟨by decide, last_actor_invariant.2.2 activeA.id Sender.support none (some 7) 99
      (Store.mk [activeA] 0) _ (by decide)⟩⟩

/-! ## Helper lemmas: the sweeper acts pointwise -/

theorem sweep_fold_store_tickets (now hours : Int) :
    ∀ (L : List Ticket) (s : Store),
      (L.foldl
        (fun acc t =>
          if autoCloseEligibleb now hours t then update_ticket (sweepClose now t) acc
          else acc) s).tickets
      = L.foldl
          (fun acc t =>
            if autoCloseEligibleb now hours t then updT (sweepClose now t) acc
            else acc) s.tickets := by
  intro L
  induction L with
  | nil => intro s; rfl
  | cons t L ih =>
    intro s
    rw [List.foldl_cons, List.foldl_cons]
    by_cases he : autoCloseEligibleb now hours t = true
    · rw [if_pos he, if_pos he, ih, update_ticket_tickets]
    · rw [if_neg he, if_neg he, ih]

theorem fold_updT_pointwise (now hours : Int) :
    ∀ (L ts : List Ticket),
      (∀ t ∈ L, ∀ u ∈ ts, u.id = t.id → u = t) →
      (L.map Ticket.id).Nodup →
      (∀ t ∈ L, ∃ u ∈ ts, u.id = t.id) →
      L.foldl
        (fun acc t =>
          if autoCloseEligibleb now hours t then updT (sweepClose now t) acc
          else acc) ts
      = ts.map (fun u =>
          if u ∈ L ∧ autoCloseEligibleb now hours u = true then sweepClose now u
          else u) := by
  intro L
  induction L with
  | nil =>
    intro ts _ _ _
    rw [List.foldl_nil]
    have : ∀ u ∈ ts,
        (if u ∈ ([] : List Ticket) ∧ autoCloseEligibleb now hours u = true then
          sweepClose now u else u) = u := by
      intro u _
      rw [if_neg]
      intro hc
      exact List.not_mem_nil u hc.1
    rw [List.map_congr_left this]
    simp
  | cons t L ih =>
    intro ts hinj hnd hmem
    have hndL : (L.map Ticket.id).Nodup := (List.nodup_cons.mp hnd).2
    have hhead : t.id ∉ L.map Ticket.id := (List.nodup_cons.mp hnd).1
    rw [List.foldl_cons]
    by_cases he : autoCloseEligibleb now hours t = true
    · rw [if_pos he]
      obtain ⟨w, hw, hwid⟩ := hmem t (List.mem_cons_self t L)
      have hany : ts.any (fun u => decide (u.id = (sweepClose now t).id)) = true := by
        rw [List.any_eq_true]
        exact ⟨w, hw, by simpa [sweepClose] using hwid⟩
      have hts2 : updT (sweepClose now t) ts
          = ts.map (fun u => if u.id = t.id then sweepClose now t else u) := by
        unfold updT
        rw [if_pos hany]
        rfl
      rw [hts2]
      have hinj' : ∀ t' ∈ L,
          ∀ u ∈ ts.map (fun u => if u.id = t.id then sweepClose now t else u),
            u.id = t'.id → u = t' := by
        intro t' ht' u hu hid
        obtain ⟨v, hv, he'⟩ := List.mem_map.mp hu
        by_cases hvid : v.id = t.id
        · rw [if_pos hvid] at he'
          exfalso
          apply hhead
          have : u.id = t.id := by rw [← he']; rfl
          rw [← this, hid]
          exact List.mem_map_of_mem Ticket.id ht'
        · rw [if_neg hvid] at he'
          exact hinj t' (List.mem_cons_of_mem t ht') u (he' ▸ hv) hid
      have hmem' : ∀ t' ∈ L,
          ∃ u ∈ ts.map (fun u => if u.id = t.id then sweepClose now t else u),
            u.id = t'.id := by
        intro t' ht'
        obtain ⟨w', hw', hwid'⟩ := hmem t' (List.mem_cons_of_mem t ht')
        refine ⟨if w'.id = t.id then sweepClose now t else w',
          List.mem_map_of_mem _ hw', ?_⟩
        by_cases hwt : w'.id = t.id
        · rw [if_pos hwt]
          show t.id = t'.id
          rw [← hwt, hwid']
        · rw [if_neg hwt]
          exact hwid'
      rw [ih _ hinj' hndL hmem', List.map_map]
      apply List.map_congr_left
      intro u hu
      simp only [Function.comp_apply]
      by_cases hid : u.id = t.id
      · have hut : u = t := hinj t (List.mem_cons_self t L) u hu hid
        subst hut
        have hinner : (if u.id = u.id then sweepClose now u else u) = sweepClose now u :=
          if_pos rfl
        rw [hinner]
        have hnot : sweepClose now u ∉ L := by
          intro hmemL
          apply hhead
          have hsid : (sweepClose now u).id = u.id := rfl
          rw [← hsid]
          exact List.mem_map_of_mem Ticket.id hmemL
        rw [if_neg (fun hc => hnot hc.1),
          if_pos ⟨List.mem_cons_self u L, he⟩]
      · have hinner : (if u.id = t.id then sweepClose now t else u) = u := if_neg hid
        rw [hinner]
        have hne : u ≠ t := fun hh => hid (by rw [hh])
        by_cases hm : u ∈ L ∧ autoCloseEligibleb now hours u = true
        · rw [if_pos hm, if_pos ⟨List.mem_cons_of_mem t hm.1, hm.2⟩]
        · rw [if_neg hm, if_neg]
          intro hc
          rcases List.mem_cons.mp hc.1 with rfl | hl
          · exact hne rfl
          · exact hm ⟨hl, hc.2⟩
    · rw [if_neg he]
      have hinj' : ∀ t' ∈ L, ∀ u ∈ ts, u.id = t'.id → u = t' :=
        fun t' ht' => hinj t' (List.mem_cons_of_mem t ht')
      have hmem' : ∀ t' ∈ L, ∃ u ∈ ts, u.id = t'.id :=
        fun t' ht' => hmem t' (List.mem_cons_of_mem t ht')
      rw [ih ts hinj' hndL hmem']
      apply List.map_congr_left
      intro u hu
      by_cases hm : u ∈ L ∧ autoCloseEligibleb now hours u = true
      · rw [if_pos hm, if_pos ⟨List.mem_cons_of_mem t hm.1, hm.2⟩]
      · rw [if_neg hm, if_neg]
        intro hc
        rcases List.mem_cons.mp hc.1 with rfl | hl
        · rw [hc.2] at he
          exact he rfl
        · exact hm ⟨hl, hc.2⟩

theorem auto_close_tickets_map (now hours : Int) (s : Store)
    (hnd : (s.tickets.map Ticket.id).Nodup) :
    (auto_close_inactive_tickets now hours s).tickets
      = s.tickets.map (sweepTicketView now hours) := by
  unfold auto_close_inactive_tickets
  rw [sweep_fold_store_tickets]
  have hinj : ∀ t ∈ s.tickets.filter (fun t =>
        decide (t.status = Status.new) || decide (t.status = Status.working)),
      ∀ u ∈ s.tickets, u.id = t.id → u = t := by
    intro t ht u hu hid
    exact List.inj_on_of_nodup_map hnd hu (List.mem_of_mem_filter ht) hid
  have hndL : ((s.tickets.filter (fun t =>
        decide (t.status = Status.new) || decide (t.status = Status.working))).map
          Ticket.id).Nodup :=
    hnd.sublist ((List.filter_sublist s.tickets).map Ticket.id)
  have hmem : ∀ t ∈ s.tickets.filter (fun t =>
        decide (t.status = Status.new) || decide (t.status = Status.working)),
      ∃ u ∈ s.tickets, u.id = t.id :=
    fun t ht => ⟨t, List.mem_of_mem_filter ht, rfl⟩
  rw [fold_updT_pointwise now hours _ _ hinj hndL hmem]
  apply List.map_congr_left
  intro u hu
  unfold sweepTicketView
  by_cases he : autoCloseEligibleb now hours u = true
  · rw [if_pos he, if_pos]
    refine ⟨List.mem_filter.mpr ⟨hu, ?_⟩, he⟩
    unfold autoCloseEligibleb at he
    rw [Bool.and_eq_true, Bool.and_eq_true] at he
    exact he.1.1
  · rw [if_neg he, if_neg (fun hc => he hc.2)]

/-- C1 counterexample: the sweeper's threshold comparison is strict.  The
concrete ticket `boundaryTicket` is open (`new`), awaits the user
(`last_actor = support`) and at `now = 86400` has been inactive for
exactly the 24-hour threshold (`now - last_activity = 24·3600`), so the
claim's `≥` condition holds — yet a sweep run leaves the store completely
unchanged and the ticket is not closed. -/
theorem auto_close_boundary_cex :
    boundaryTicket.status = Status.new
    ∧ boundaryTicket.last_actor = Sender.support
    ∧ (24 : Int) * 3600 ≤ 86400 - effectiveActivity boundaryTicket
    ∧ auto_close_inactive_tickets 86400 24 (Store.mk [boundaryTicket] 0)
        = Store.mk [boundaryTicket] 0 := by
  decide

/-- C1 (amended): in a single sweep over a store with unique ticket ids,
each ticket is transformed pointwise; a ticket is set to `done` (with its
activity timestamp refreshed) if and only if its status is `new` or
`working`, its last actor is `support`, and `now` minus its last activity
(falling back to `created_at` when absent) is **strictly greater** than
the threshold; every other ticket is left unchanged — in particular any
ticket whose last actor is the user is never closed. -/
theorem auto_close_spec (now hours : Int) (s : Store)
    (hnd : (s.tickets.map Ticket.id).Nodup) :
    (auto_close_inactive_tickets now hours s).tickets
      = s.tickets.map (sweepTicketView now hours)
    ∧ ∀ t : Ticket,
        (autoCloseEligibleb now hours t = true ↔
          (t.status = Status.new ∨ t.status = Status.working)
          ∧ t.last_actor = Sender.support
          ∧ hours * 3600 < now - effectiveActivity t)
        ∧ (autoCloseEligibleb now hours t = true →
            sweepTicketView now hours t
              = { t with status := Status.done, last_activity_at := some now })
        ∧ (autoCloseEligibleb now hours t = false → sweepTicketView now hours t = t) := by
  refine ⟨auto_close_tickets_map now hours s hnd, ?_⟩
  intro t
  refine ⟨?_, ?_, ?_⟩
  · unfold autoCloseEligibleb
    simp only [Bool.and_eq_true, Bool.or_eq_true, decide_eq_true_eq]
    constructor
    · rintro ⟨⟨h1, h2⟩, h3⟩
      exact ⟨h1, h2, by omega⟩
    · rintro ⟨h1, h2, h3⟩
      exact ⟨⟨h1, h2⟩, by omega⟩
  · intro he
    unfold sweepTicketView
    rw [if_pos he]
    rfl
  · intro he
    unfold sweepTicketView
    rw [if_neg]
    rw [he]
    exact Bool.false_ne_true

/-- Witness for C1 (amended): at `now = 90000` the fixture
`boundaryTicket` is strictly beyond the 24-hour threshold, is eligible,
and the sweep closes exactly it. -/
theorem auto_close_spec_witness :
    ((Store.mk [boundaryTicket] 0).tickets.map Ticket.id).Nodup
    ∧ (auto_close_inactive_tickets 90000 24 (Store.mk [boundaryTicket] 0)).tickets
        = (Store.mk [boundaryTicket] 0).tickets.map (sweepTicketView 90000 24)
    ∧ autoCloseEligibleb 90000 24 boundaryTicket = true
    ∧ sweepTicketView 90000 24 boundaryTicket
        = { boundaryTicket with status := Status.done, last_activity_at := some 90000 } :=
  ⟨by decide,
    (auto_close_spec 90000 24 (Store.mk [boundaryTicket] 0) (by decide)).1,
    by decide,
    ((auto_close_spec 90000 24 (Store.mk [boundaryTicket] 0) (by decide)).2
      boundaryTicket).2.1 (by decide)⟩

/-! ## Helper lemmas: the per-day id sequence -/

theorem nums_max (j : Nat) :
    (((List.range j).map Nat.succ).map Nat.succ).foldl Nat.max 1 = j + 1 := by
  induction j with
  | zero => rfl
  | succ j ih =>
    rw [List.range_succ, List.map_append, List.map_append, List.foldl_append, ih]
    rw [List.map_cons, List.map_nil, List.map_cons, List.map_nil,
      List.foldl_cons, List.foldl_nil]
    exact Nat.le_antisymm (Nat.max_le.mpr ⟨by omega, Nat.le_refl _⟩)
      (Nat.le_max_right _ _)

theorem gen_id_stage (dp : Str) (s' : Store) (olds : List Str) (k : Nat)
    (hids : s'.tickets.map Ticket.id
      = olds ++ (List.range k).map (fun i => idPre dp ++ pad4 (i + 1)))
    (holds : ∀ id ∈ olds, startsWith (idPre dp) id = false) :
    generate_ticket_id dp s' = idPre dp ++ pad4 (k + 1) := by
  have hfil : (s'.tickets.map Ticket.id).filter (fun tid => startsWith (idPre dp) tid)
      = (List.range k).map (fun i => idPre dp ++ pad4 (i + 1)) := by
    rw [hids, List.filter_append]
    rw [List.filter_eq_nil_iff.mpr (by
      intro id hid
      rw [holds id hid]
      exact Bool.false_ne_true)]
    rw [List.filter_eq_self.mpr (by
      intro id hid
      obtain ⟨i, _, hidi⟩ := List.mem_map.mp hid
      rw [← hidi]
      exact startsWith_append _ _)]
    exact List.nil_append _
  have hmtch : ((s'.tickets.map Ticket.id).filter
        (fun tid => startsWith (idPre dp) tid)).map (fun tid => intOfChars (lastSeg tid))
      = (List.range k).map Nat.succ := by
    rw [hfil, List.map_map]
    apply List.map_congr_left
    intro i _
    show intOfChars (lastSeg (idPre dp ++ pad4 (i + 1))) = i.succ
    rw [num_of_gen_id]
  show idPre dp ++ pad4
      (match ((s'.tickets.map Ticket.id).filter
          (fun tid => startsWith (idPre dp) tid)).map (fun tid => intOfChars (lastSeg tid)) with
        | [] => 1
        | n :: rest => rest.foldl Nat.max n + 1)
    = idPre dp ++ pad4 (k + 1)
  rw [hmtch]
  cases k with
  | zero => rfl
  | succ j =>
    rw [List.range_succ_eq_map, List.map_cons]
    show idPre dp ++ pad4
        ((((List.range j).map Nat.succ).map Nat.succ).foldl Nat.max 1 + 1)
      = idPre dp ++ pad4 (j + 1 + 1)
    rw [nums_max j]

theorem create_append (dp : Str) (uid : Nat) (msg : Str) (un : Option Str)
    (now : Int) (s' : Store)
    (hfresh : ∀ u ∈ s'.tickets, ¬u.id = generate_ticket_id dp s') :
    (create_ticket dp uid msg un now s').2.tickets.map Ticket.id
      = s'.tickets.map Ticket.id ++ [generate_ticket_id dp s'] := by
  show (dmCreateTicket _ s').tickets.map Ticket.id = _
  unfold dmCreateTicket
  rw [if_neg]
  · rw [dmSave]
    show (s'.tickets ++ [_]).map Ticket.id = _
    rw [List.map_append]
    rfl
  · intro hany
    rw [List.any_eq_true] at hany
    obtain ⟨u, hu, hdec⟩ := hany
    rw [decide_eq_true_eq] at hdec
    exact hfresh u hu hdec

theorem createN_ids (dp : Str) (uid : Nat) (msg : Str) (un : Option Str)
    (now : Int) (s : Store) (N : Nat)
    (h : ∀ t ∈ s.tickets, startsWith (idPre dp) t.id = false) :
    (createN dp uid msg un now s N).tickets.map Ticket.id
      = s.tickets.map Ticket.id
          ++ (List.range N).map (fun i => idPre dp ++ pad4 (i + 1)) := by
  induction N with
  | zero => simp [createN]
  | succ k ih =>
    have hgen : generate_ticket_id dp (createN dp uid msg un now s k)
        = idPre dp ++ pad4 (k + 1) := by
      apply gen_id_stage dp _ (s.tickets.map Ticket.id) k ih
      intro id hid
      obtain ⟨t, ht, hidt⟩ := List.mem_map.mp hid
      rw [← hidt]
      exact h t ht
    have hfresh : ∀ u ∈ (createN dp uid msg un now s k).tickets,
        ¬u.id = generate_ticket_id dp (createN dp uid msg un now s k) := by
      intro u hu heq
      rw [hgen] at heq
      have hmem : u.id ∈ (createN dp uid msg un now s k).tickets.map Ticket.id :=
        List.mem_map_of_mem Ticket.id hu
      rw [ih] at hmem
      rcases List.mem_append.mp hmem with hold | hnew
      · obtain ⟨t, ht, hidt⟩ := List.mem_map.mp hold
        have hf := h t ht
        rw [hidt, heq, startsWith_append] at hf
        exact absurd hf (by decide)
      · obtain ⟨i, hi, hidi⟩ := List.mem_map.mp hnew
        rw [heq] at hidi
        have := gen_id_inj dp hidi
        rw [List.mem_range] at hi
        omega
    show (create_ticket dp uid msg un now (createN dp uid msg un now s k)).2.tickets.map
        Ticket.id = _
    rw [create_append dp uid msg un now _ hfresh, ih, hgen, List.range_succ,
      List.map_append, List.append_assoc, List.map_cons, List.map_nil]

/-- C5: starting from any store in which no ticket id carries today's date
prefix, `N` successive creations on the same day assign exactly the ids
`T-<day>-0001 … T-<day>-<N>` in order (per-day sequence numbers starting
at 1 and increasing by 1), these ids are pairwise distinct, and the first
generated id of the day is the prefix followed by `0001` (the sequence
restarts at 1 when no existing id has today's prefix). -/
theorem generate_id_sequence (dp : Str) (uid : Nat) (msg : Str) (un : Option Str)
    (now : Int) (s : Store) (N : Nat)
    (h : ∀ t ∈ s.tickets, startsWith (idPre dp) t.id = false) :
    (createN dp uid msg un now s N).tickets.map Ticket.id
        = s.tickets.map Ticket.id
            ++ (List.range N).map (fun i => idPre dp ++ pad4 (i + 1))
    ∧ ((List.range N).map (fun i => idPre dp ++ pad4 (i + 1))).Nodup
    ∧ generate_ticket_id dp s = idPre dp ++ pad4 1 := by
  refine ⟨createN_ids dp uid msg un now s N h, ?_, ?_⟩
  · apply (List.nodup_range N).map
    intro i j hij
    have := gen_id_inj dp hij
    omega
  · apply gen_id_stage dp s (s.tickets.map Ticket.id) 0 (by simp)
    intro id hid
    obtain ⟨t, ht, hidt⟩ := List.mem_map.mp hid
    rw [← hidt]
    exact h t ht

/-- Witness for C5: two creations on day `20260101` into the empty store
produce `T-20260101-0001` and `T-20260101-0002`. -/
theorem generate_id_sequence_witness :
    (∀ t ∈ (Store.mk [] 0).tickets, startsWith (idPre "20260101".data) t.id = false)
    ∧ ((createN "20260101".data 1 "hello".data none 0 (Store.mk [] 0) 2).tickets.map
          Ticket.id
        = (Store.mk [] 0).tickets.map Ticket.id
            ++ (List.range 2).map (fun i => idPre "20260101".data ++ pad4 (i + 1))
      ∧ ((List.range 2).map (fun i => idPre "20260101".data ++ pad4 (i + 1))).Nodup
      ∧ generate_ticket_id "20260101".data (Store.mk [] 0)
          = idPre "20260101".data ++ pad4 1) :=
  ⟨by simp,
    generate_id_sequence "20260101".data 1 "hello".data none 0 (Store.mk [] 0) 2
      (by simp)⟩

/-! ## Helper lemmas: serialization round trips -/

theorem strToStatus_statusToStr (st : Status) : strToStatus (statusToStr st) = some st := by
  cases st <;> rfl

theorem strToSender_senderToStr (sd : Sender) : strToSender (senderToStr sd) = some sd := by
  cases sd <;> rfl

theorem digitsGo_ne_nil (fuel n : Nat) (h : n < fuel) : digitsGo fuel n ≠ [] := by
  cases fuel with
  | zero => omega
  | succ fuel =>
    unfold digitsGo
    split
    · exact List.cons_ne_nil _ _
    · exact List.append_ne_nil_of_right_ne_nil _ (List.cons_ne_nil _ _)

theorem natDigits_ne_nil (n : Nat) : natDigits n ≠ [] :=
  digitsGo_ne_nil _ _ (Nat.lt_succ_self n)

theorem timeOfIso_isoOfTime (t : Int) : timeOfIso (isoOfTime t) = t := by
  unfold isoOfTime
  by_cases ht : t < 0
  · rw [if_pos ht]
    show (if '-' = '-' then -(intOfChars (natDigits (-t).toNat) : Int)
      else ((intOfChars ('-' :: natDigits (-t).toNat)) : Int)) = t
    rw [if_pos rfl, natDigits_val]
    omega
  · rw [if_neg ht]
    cases hd : natDigits t.toNat with
    | nil => exact absurd hd (natDigits_ne_nil _)
    | cons c rest =>
      have hc : c ≠ '-' := by
        have hm := digitsGo_mem _ _ c (hd ▸ List.mem_cons_self c rest)
        obtain ⟨d, hd10, hcd⟩ := hm
        rw [hcd]
        exact digitChar_ne_dash hd10
      show (if c = '-' then -(intOfChars rest : Int) else (intOfChars (c :: rest) : Int)) = t
      rw [if_neg hc, ← hd, natDigits_val]
      omega

theorem mapM_dec_enc (ms : List Message) :
    (ms.map (fun m =>
      { sender := senderToStr m.sender, text := m.text,
        sent_at := isoOfTime m.sent_at : JMessage })).mapM (fun m =>
      (strToSender m.sender).map (fun sd =>
        { sender := sd, text := m.text, sent_at := timeOfIso m.sent_at : Message }))
      = some ms := by
  induction ms with
  | nil => rfl
  | cons m ms ih =>
    rw [List.map_cons, List.mapM_cons, ih]
    simp [strToSender_senderToStr, timeOfIso_isoOfTime]

theorem from_dict_to_dict (t : Ticket) : from_dict (to_dict t) = some t := by
  unfold from_dict to_dict
  simp only [strToStatus_statusToStr, strToSender_senderToStr, mapM_dec_enc,
    timeOfIso_isoOfTime, Option.map_map, Option.bind_eq_bind, Option.some_bind]
  have hact : (t.last_activity_at.map isoOfTime).map timeOfIso = t.last_activity_at := by
    cases t.last_activity_at <;> simp [timeOfIso_isoOfTime]
  have hfr : (t.first_response_at.map isoOfTime).map timeOfIso = t.first_response_at := by
    cases t.first_response_at <;> simp [timeOfIso_isoOfTime]
  rw [Option.map_map] at hact hfr
  rw [hact, hfr]

theorem decodeTickets_save (l : List (Str × Ticket)) :
    decodeTickets (l.map (fun p => (p.1, to_dict p.2))) = some l := by
  induction l with
  | nil => rfl
  | cons p l ih =>
    unfold decodeTickets at *
    rw [List.map_cons, List.mapM_cons, ih]
    simp [from_dict_to_dict]

theorem parseData_save (d : DMData) : parseData (save d) = d := by
  unfold parseData save
  rw [decodeTickets_save]

theorem safe_write_primary (fs : FS) (p : Payload) :
    (safe_write_json fs p).primary = FileRead.ok p := by
  by_cases hm : fs.primary ≠ FileRead.missing
  · simp [safe_write_json, hm]
  · simp [safe_write_json, hm]

/-- C6: a completed `save()` of any in-memory state followed by `load()`
reproduces an equivalent ticket set — in the model, the identical state:
the same ticket ids with the same statuses, the same messages in the same
order and equal timestamps (serialization of epoch-second timestamps is
exact), with users, feedbacks and cooldowns also preserved; the per-ticket
round trip `parseData (save d) = d` holds for every state. -/
theorem save_load_round_trip (d : DMData) (fs : FS) :
    load (safe_write_json fs (save d)) = d
    ∧ parseData (save d) = d := by
  constructor
  · have hsw := safe_write_primary fs (save d)
    unfold load
    rw [hsw]
    show parseData (save d) = d
    exact parseData_save d
  · exact parseData_save d

/-- C7: `load()` reads the primary snapshot; when reading the primary
fails (missing or corrupt) it loads from the `.bak` snapshot; when both
fail it starts with empty storage (tickets, users, feedbacks and
cooldowns all empty) without raising.  The temporary write path is never
consulted by `load()` — neither in general nor at any intermediate state
of `_safe_write_json` — so the store is never populated from a
half-written file: at every crash point the loaded state is the old view,
the complete new payload, or empty; and a completed write installs the
full payload as the primary snapshot by the final rename. -/
theorem load_fallback_spec (fs : FS) (p q : Payload) :
    (fs.primary = FileRead.ok p → load fs = parseData p)
    ∧ (load_from_path fs.primary = none → fs.backup = FileRead.ok q →
        load fs = parseData q)
    ∧ (load_from_path fs.primary = none → load_from_path fs.backup = none →
        load fs = emptyData
        ∧ (load fs).tickets = [] ∧ (load fs).users = []
        ∧ (load fs).feedbacks = [] ∧ (load fs).cooldowns = [])
    ∧ (∀ x, load { fs with tmp := x } = load fs)
    ∧ (∀ s ∈ safeWriteStates fs p, ∀ x, load { s with tmp := x } = load s)
    ∧ (∀ s ∈ safeWriteStates fs p,
        load s = load fs ∨ load s = parseData p ∨ load s = emptyData)
    ∧ (safe_write_json fs p).primary = FileRead.ok p := by
  refine ⟨?_, ?_, ?_, ?_, ?_, ?_, safe_write_primary fs p⟩
  · intro h
    unfold load
    rw [h]
    rfl
  · intro h1 h2
    unfold load
    rw [h1, h2]
    rfl
  · intro h1 h2
    have h3 : load fs = emptyData := by
      unfold load
      rw [h1, h2]
    exact ⟨h3, by rw [h3]; rfl, by rw [h3]; rfl, by rw [h3]; rfl, by rw [h3]; rfl⟩
  · intro x; rfl
  · intro s _ x; rfl
  · intro s hs
    simp only [safeWriteStates, List.mem_cons, List.not_mem_nil, or_false] at hs
    rcases hs with rfl | rfl | rfl | rfl | rfl
    · left; rfl
    · left; rfl
    · left; rfl
    · cases hp : fs.primary with
      | missing =>
        rw [if_neg (by simp)]
        left
        unfold load
        rw [hp]
      | corrupt =>
        rw [if_pos (by simp)]
        right; right
        rfl
      | ok r =>
        rw [if_pos (by simp)]
        left
        have h1 : load fs = parseData r := by
          unfold load
          rw [hp]
          rfl
        rw [h1]
        rfl
    · right; left
      by_cases hm : fs.primary = FileRead.missing
      · rw [if_neg (by simp [hm])]
        rfl
      · rw [if_pos (by simp [hm])]
        rfl

/-- Witness for C7: a readable primary is loaded; a corrupt primary falls
back to the readable backup; with nothing readable the load is empty; and
at the initial crash point of a write over `fsAllBad` the loaded state is
among old view, new payload, or empty, independent of the tmp file. -/
theorem load_fallback_spec_witness :
    (fsPrimaryOk.primary = FileRead.ok emptyPayload
      ∧ load fsPrimaryOk = parseData emptyPayload)
    ∧ (load_from_path fsPrimaryBad.primary = none
      ∧ fsPrimaryBad.backup = FileRead.ok emptyPayload
      ∧ load fsPrimaryBad = parseData emptyPayload)
    ∧ (load_from_path fsAllBad.primary = none
      ∧ load_from_path fsAllBad.backup = none
      ∧ load fsAllBad = emptyData)
    ∧ (fsAllBad ∈ safeWriteStates fsAllBad emptyPayload
      ∧ load { fsAllBad with tmp := FileRead.corrupt } = load fsAllBad
      ∧ (load fsAllBad = load fsAllBad
        ∨ load fsAllBad = parseData emptyPayload
        ∨ load fsAllBad = emptyData)) :=
  ⟨⟨rfl, (load_fallback_spec fsPrimaryOk emptyPayload emptyPayload).1 rfl⟩,
   ⟨rfl, rfl, (load_fallback_spec fsPrimaryBad emptyPayload emptyPayload).2.1 rfl rfl⟩,
   ⟨rfl, rfl, ((load_fallback_spec fsAllBad emptyPayload emptyPayload).2.2.1 rfl rfl).1⟩,
   ⟨by decide,
    (load_fallback_spec fsAllBad emptyPayload emptyPayload).2.2.2.2.1 fsAllBad (by decide)
      FileRead.corrupt,
    (load_fallback_spec fsAllBad emptyPayload emptyPayload).2.2.2.2.2.1 fsAllBad (by decide)⟩⟩

end Helpdesk
